import Mathlib

/-!
Verification development for the `LinearElastic.cpp` driver of the
`mfem-apps` repository.  The driver wires together a piecewise elastic
tensor table, an elasticity stiffness integrator and a stress recovery
operator; machine doubles are embedded as rationals.  Components whose
sources are in headers not shipped with the repository snapshot
(`GetElasticityTensor.hpp`, `coefficientaddon.hpp`,
`LinearElasticIntegrator.hpp`, `mfem-apps.hpp`) are modelled from the
specification, as marked on each definition.
-/

/-- The first Lamé parameter λ = Eν/((1+ν)(1−2ν)) of an isotropic material. -/
def lamCoef (E nu : ℚ) : ℚ := E * nu / ((1 + nu) * (1 - 2 * nu))

/-- The second Lamé parameter (shear modulus) μ = E/(2(1+ν)). -/
def muCoef (E nu : ℚ) : ℚ := E / (2 * (1 + nu))

/-- Modelled from the spec: `GetElasticityTensor.hpp` is not in the source
snapshot.  The 6×6 isotropic elastic stiffness tensor in Voigt order
(xx, yy, zz, yz, xz, xy): the normal-normal block carries λ+2μ on the
diagonal and λ off-diagonal, the shear block carries μ on its diagonal,
and all normal/shear cross terms vanish. -/
def isotropicTensor (E nu : ℚ) : Matrix (Fin 6) (Fin 6) ℚ :=
  !![lamCoef E nu + 2 * muCoef E nu, lamCoef E nu, lamCoef E nu, 0, 0, 0;
     lamCoef E nu, lamCoef E nu + 2 * muCoef E nu, lamCoef E nu, 0, 0, 0;
     lamCoef E nu, lamCoef E nu, lamCoef E nu + 2 * muCoef E nu, 0, 0, 0;
     0, 0, 0, muCoef E nu, 0, 0;
     0, 0, 0, 0, muCoef E nu, 0;
     0, 0, 0, 0, 0, muCoef E nu]

/-- Error kinds of the material core (spec §7). -/
inductive MatError where
  | invalidMaterialParameter : MatError
  | missingRegionMapping : ℤ → MatError
deriving DecidableEq, Repr

/-- Modelled from the spec: `GetElasticityTensor.hpp` is not in the source
snapshot.  Checked tensor construction: fails with
`invalidMaterialParameter` exactly when E ≤ 0 or ν lies outside the open
interval (−1, 1/2); otherwise returns the isotropic tensor. -/
def getElasticityTensor (E nu : ℚ) : Except MatError (Matrix (Fin 6) (Fin 6) ℚ) :=
  if E ≤ 0 ∨ nu ≤ -1 ∨ 1/2 ≤ nu then
    Except.error MatError.invalidMaterialParameter
  else
    Except.ok (isotropicTensor E nu)

/-- A material tensor table: an association list from 0-based table slot
(region id minus one) to a 6×6 tensor. -/
def MaterialTensorTable : Type := List (ℤ × Matrix (Fin 6) (Fin 6) ℚ)

/-- Insert a tensor for a slot, shadowing any prior entry for that slot. -/
def tableInsert (t : MaterialTensorTable) (slot : ℤ) (C : Matrix (Fin 6) (Fin 6) ℚ) :
    MaterialTensorTable :=
  (slot, C) :: t

/-- Modelled from the spec: the lookup of `PWMatrixCoefficient`
(`coefficientaddon.hpp` is not in the source snapshot) per §4.2: lookup of
an unpopulated slot fails with a `missingRegionMapping` error carrying the
offending id, rather than producing a default tensor. -/
def tableLookup (t : MaterialTensorTable) (slot : ℤ) :
    Except MatError (Matrix (Fin 6) (Fin 6) ℚ) :=
  match t with
  | [] => Except.error (MatError.missingRegionMapping slot)
  | (s, C) :: rest => if s = slot then Except.ok C else tableLookup rest slot

/-- Completeness of a table for a mesh whose element attributes range over
1..attrMax, i.e. table slots 0..attrMax−1. -/
def tableCompleteForMesh (t : MaterialTensorTable) (attrMax : ℕ) : Bool :=
  (List.range attrMax).all (fun k => (tableLookup t (k : ℤ)).isOk)

/-- The driver's material parameters (`LinearElastic.cpp` lines 81–86):
E = (1000e3, 200e3), ν = (0.3, 0.3). -/
def driverE : List ℚ := [1000000, 200000]

/-- Poisson ratios set by the driver, both 0.3. -/
def driverNu : List ℚ := [3/10, 3/10]

/-- The driver's table population loop (`LinearElastic.cpp` lines 221–226):
for i = 0, 1 it writes the tensor for material i into slot
attributes.Max() − E.size() + i, i.e. slots attrMax−2 and attrMax−1.  No
other slot is ever written. -/
def driverMaterialTable (attrMax : ℤ) : MaterialTensorTable :=
  List.foldl
    (fun (t : MaterialTensorTable) (i : ℕ) =>
      tableInsert t (attrMax - 2 + (i : ℤ))
        (isotropicTensor (driverE.getD i 0) (driverNu.getD i 0)))
    [] (List.range driverE.length)

/-- The driver's mesh admission guard.  The check
`if (mesh->attributes.Max() < 2 || mesh->bdr_attributes.Max() < 2) return 3`
at `LinearElastic.cpp` lines 129–135 is commented out, so every mesh is
accepted regardless of its attribute counts. -/
def driverGuard (_attrMax _bdrAttrMax : ℤ) : Bool :=
  true

/-- A statement of the driver's pull-force block: either an assignment
`pull_force(i) = v` into the vector, or a bare expression statement whose
value is discarded. -/
inductive CStmt where
  | assign : ℕ → ℚ → CStmt
  | exprStmt : ℚ → CStmt

/-- Execute one statement on the vector state.  An assignment past the end
of the vector is an out-of-bounds access and fails; an expression
statement evaluates its value and discards it, leaving the state as is. -/
def execStmt (st : CStmt) (s : List ℚ) : Option (List ℚ) :=
  match st with
  | CStmt.assign i v => if i < s.length then some (s.set i v) else none
  | CStmt.exprStmt _ => some s

/-- Execute a statement sequence left to right. -/
def execStmts (l : List CStmt) (s : List ℚ) : Option (List ℚ) :=
  match l with
  | [] => some s
  | st :: rest =>
    match execStmt st s with
    | some s2 => execStmts rest s2
    | none => none

/-- The statement sequence at `LinearElastic.cpp` line 202:
`pull_force(1) = 4.0e3/(200.*60.);-10./3.;-1.0e-2;` — one assignment
followed by two expression statements. -/
def pullForceStmts : List CStmt :=
  [CStmt.assign 1 (4000 / (200 * 60)),
   CStmt.exprStmt (-10 / 3),
   CStmt.exprStmt (-1 / 100)]

/-- The driver's pull-force vector (lines 199–203): a vector of length
`mesh->bdr_attributes.Max()`, zero-filled, then run through the statement
sequence of line 202. -/
def pullForce (bdrAttrMax : ℕ) : Option (List ℚ) :=
  execStmts pullForceStmts (List.replicate bdrAttrMax 0)

/-- Modelled from the spec: `LinearElasticIntegrator.hpp` is not in the
source snapshot.  Element stiffness assembly per §4.3: given the element's
tensor C and its quadrature data — a list of pairs (w, B) of a combined
weight (quadrature weight times Jacobian determinant) and the 6×m
strain-displacement operator at that point — accumulate w · Bᵀ·C·B. -/
def assembleElement {m : ℕ} (C : Matrix (Fin 6) (Fin 6) ℚ)
    (qps : List (ℚ × Matrix (Fin 6) (Fin m) ℚ)) : Matrix (Fin m) (Fin m) ℚ :=
  (qps.map (fun wb => wb.1 • (wb.2.transpose * C * wb.2))).sum

/-- An element's recovery data: its region table slot, its global
degree-of-freedom indices, and the strain-displacement operator at each of
its evaluation points. -/
structure Elem (n : ℕ) where
  slot : ℤ
  dof : Fin n → ℕ
  B : List (Matrix (Fin 6) (Fin n) ℚ)

/-- The element-local displacement sub-vector gathered from the global
displacement field through the element's dof indices. -/
def localDisp {n : ℕ} (u : ℕ → ℚ) (e : Elem n) : Fin n → ℚ :=
  fun j => u (e.dof j)

/-- Modelled from the spec: `CalcStressSolids` (`mfem-apps.hpp` is not in
the source snapshot).  Per-element stress recovery per §4.4: look up the
element's own tensor, evaluate the strain B·u_local at each evaluation
point, and contract it with the tensor; fails only when the element's slot
is missing from the table. -/
def elemStress {n : ℕ} (t : MaterialTensorTable) (u : ℕ → ℚ) (e : Elem n) :
    Except MatError (List (Fin 6 → ℚ)) :=
  (tableLookup t e.slot).map
    (fun C => e.B.map (fun Bp => C.mulVec (Bp.mulVec (localDisp u e))))

/-- Modelled from the spec: `CalcStressSolids` recovery over the whole
mesh.  The output is organized per element: slot i of the output holds
element i's six-component stresses at its evaluation points, computed with
element i's own tensor; no cross-element combination occurs. -/
def recoverStress {n : ℕ} (t : MaterialTensorTable) (elems : List (Elem n))
    (u : ℕ → ℚ) : List (Except MatError (List (Fin 6 → ℚ))) :=
  elems.map (elemStress t u)

/-- A single-column strain-displacement operator used for concrete
instantiations: the unit normal-strain column. -/
def demoColB : Matrix (Fin 6) (Fin 1) ℚ := !![1; 0; 0; 0; 0; 0]

/-- A concrete one-dof element on region slot 0 sharing global dof 5. -/
def demoE1 : Elem 1 := { slot := 0, dof := fun _ => 5, B := [demoColB] }

/-- A concrete one-dof element on region slot 1 sharing global dof 5. -/
def demoE2 : Elem 1 := { slot := 1, dof := fun _ => 5, B := [demoColB] }

/-- A concrete two-material table: slot 0 carries the identity tensor,
slot 1 carries twice the identity. -/
def demoIdTable : MaterialTensorTable :=
  tableInsert (tableInsert [] 0 1) 1 ((2 : ℚ) • 1)

/-- A concrete unit displacement field. -/
def demoU : ℕ → ℚ := fun _ => 1

theorem isotropicTensor_transpose (E nu : ℚ) :
    (isotropicTensor E nu).transpose = isotropicTensor E nu := by
  ext i j
  fin_cases i <;> fin_cases j <;> rfl

theorem isotropicTensor_quadForm (E nu : ℚ) (y : Fin 6 → ℚ) :
    Matrix.dotProduct y ((isotropicTensor E nu).mulVec y) =
      lamCoef E nu * (y 0 + y 1 + y 2) ^ 2
        + 2 * muCoef E nu * ((y 0) ^ 2 + (y 1) ^ 2 + (y 2) ^ 2)
        + muCoef E nu * ((y 3) ^ 2 + (y 4) ^ 2 + (y 5) ^ 2) := by
  show (Finset.univ.sum fun i => y i * (Finset.univ.sum fun j => isotropicTensor E nu i j * y j)) = _
  simp only [Fin.sum_univ_six]
  have key :
      y 0 * ((lamCoef E nu + 2 * muCoef E nu) * y 0 + lamCoef E nu * y 1 + lamCoef E nu * y 2
              + 0 * y 3 + 0 * y 4 + 0 * y 5)
        + y 1 * (lamCoef E nu * y 0 + (lamCoef E nu + 2 * muCoef E nu) * y 1 + lamCoef E nu * y 2
              + 0 * y 3 + 0 * y 4 + 0 * y 5)
        + y 2 * (lamCoef E nu * y 0 + lamCoef E nu * y 1 + (lamCoef E nu + 2 * muCoef E nu) * y 2
              + 0 * y 3 + 0 * y 4 + 0 * y 5)
        + y 3 * (0 * y 0 + 0 * y 1 + 0 * y 2 + muCoef E nu * y 3 + 0 * y 4 + 0 * y 5)
        + y 4 * (0 * y 0 + 0 * y 1 + 0 * y 2 + 0 * y 3 + muCoef E nu * y 4 + 0 * y 5)
        + y 5 * (0 * y 0 + 0 * y 1 + 0 * y 2 + 0 * y 3 + 0 * y 4 + muCoef E nu * y 5) =
      lamCoef E nu * (y 0 + y 1 + y 2) ^ 2
        + 2 * muCoef E nu * ((y 0) ^ 2 + (y 1) ^ 2 + (y 2) ^ 2)
        + muCoef E nu * ((y 3) ^ 2 + (y 4) ^ 2 + (y 5) ^ 2) := by ring
  exact key

theorem muCoef_pos (E nu : ℚ) (hE : 0 < E) (h1 : -1 < nu) : 0 < muCoef E nu := by
  have h : (0:ℚ) < 2 * (1 + nu) := by linarith
  exact div_pos hE h

theorem threeLamTwoMu_pos (E nu : ℚ) (hE : 0 < E) (h1 : -1 < nu) (h2 : nu < 1/2) :
    0 < 3 * lamCoef E nu + 2 * muCoef E nu := by
  have ha : (0:ℚ) < 1 + nu := by linarith
  have hb : (0:ℚ) < 1 - 2 * nu := by linarith
  have key : 3 * lamCoef E nu + 2 * muCoef E nu = E / (1 - 2 * nu) := by
    unfold lamCoef muCoef
    field_simp
    ring
  rw [key]
  exact div_pos hE hb

theorem quadShape_nonneg (a b s0 s1 s2 s3 s4 s5 : ℚ) (hb : 0 < b)
    (hab : 0 < 3 * a + 2 * b) :
    0 ≤ a * (s0 + s1 + s2) ^ 2 + 2 * b * (s0 ^ 2 + s1 ^ 2 + s2 ^ 2)
        + b * (s3 ^ 2 + s4 ^ 2 + s5 ^ 2) := by
  nlinarith [sq_nonneg (s0 - s1), sq_nonneg (s1 - s2), sq_nonneg (s0 - s2),
             sq_nonneg (s0 + s1 + s2), sq_nonneg s3, sq_nonneg s4, sq_nonneg s5]

theorem isotropicTensor_psd (E nu : ℚ) (hE : 0 < E) (h1 : -1 < nu) (h2 : nu < 1/2)
    (y : Fin 6 → ℚ) : 0 ≤ Matrix.dotProduct y ((isotropicTensor E nu).mulVec y) := by
  rw [isotropicTensor_quadForm]
  exact quadShape_nonneg _ _ _ _ _ _ _ _ (muCoef_pos E nu hE h1) (threeLamTwoMu_pos E nu hE h1 h2)

theorem term_quad {m : ℕ} (C : Matrix (Fin 6) (Fin 6) ℚ) (B : Matrix (Fin 6) (Fin m) ℚ)
    (x : Fin m → ℚ) :
    Matrix.dotProduct x ((B.transpose * C * B).mulVec x)
      = Matrix.dotProduct (B.mulVec x) (C.mulVec (B.mulVec x)) := by
  rw [← Matrix.mulVec_mulVec, ← Matrix.mulVec_mulVec, Matrix.dotProduct_mulVec,
      Matrix.vecMul_transpose]

theorem assembleElement_psd_aux {m : ℕ} (C : Matrix (Fin 6) (Fin 6) ℚ)
    (qps : List (ℚ × Matrix (Fin 6) (Fin m) ℚ))
    (hC : ∀ y : Fin 6 → ℚ, 0 ≤ Matrix.dotProduct y (C.mulVec y))
    (hw : ∀ wb ∈ qps, 0 ≤ wb.1) (x : Fin m → ℚ) :
    0 ≤ Matrix.dotProduct x ((assembleElement C qps).mulVec x) := by
  induction qps with
  | nil =>
    simp [assembleElement]
  | cons wb rest ih =>
    have hrest : ∀ p ∈ rest, 0 ≤ p.1 := fun p hp => hw p (List.mem_cons_of_mem _ hp)
    have hhd : 0 ≤ wb.1 := hw wb (List.mem_cons_self _ _)
    have expand : assembleElement C (wb :: rest)
        = wb.1 • (wb.2.transpose * C * wb.2) + assembleElement C rest := by
      simp [assembleElement]
    rw [expand, Matrix.add_mulVec, Matrix.dotProduct_add, Matrix.smul_mulVec_assoc,
        Matrix.dotProduct_smul]
    have h1 : 0 ≤ wb.1 • Matrix.dotProduct x ((wb.2.transpose * C * wb.2).mulVec x) := by
      rw [term_quad]
      exact mul_nonneg hhd (hC _)
    exact add_nonneg h1 (ih hrest)

theorem assembleElement_symm_aux {m : ℕ} (C : Matrix (Fin 6) (Fin 6) ℚ)
    (qps : List (ℚ × Matrix (Fin 6) (Fin m) ℚ)) (hC : C.transpose = C) :
    (assembleElement C qps).transpose = assembleElement C qps := by
  induction qps with
  | nil => simp [assembleElement]
  | cons wb rest ih =>
    have expand : assembleElement C (wb :: rest)
        = wb.1 • (wb.2.transpose * C * wb.2) + assembleElement C rest := by
      simp [assembleElement]
    rw [expand, Matrix.transpose_add, Matrix.transpose_smul, ih]
    congr 1
    rw [Matrix.transpose_mul, Matrix.transpose_mul, Matrix.transpose_transpose, hC,
        Matrix.mul_assoc]

theorem driverMaterialTable_eq (attrMax : ℤ) :
    driverMaterialTable attrMax =
      [(attrMax - 1, isotropicTensor 200000 (3/10)),
       (attrMax - 2, isotropicTensor 1000000 (3/10))] := by
  show [(attrMax - 2 + ((1:ℕ):ℤ), _), (attrMax - 2 + ((0:ℕ):ℤ), _)] = _
  norm_num [driverE, driverNu]
  omega

theorem localDisp_smul {n : ℕ} (u : ℕ → ℚ) (k : ℚ) (e : Elem n) :
    localDisp (fun d => k * u d) e = k • localDisp u e := by
  funext j
  simp [localDisp]

/-- Claim C2: for every E > 0 and ν in the open interval (−1, 1/2), the
tensor built from (E, ν) is symmetric; its upper-left 3×3 block has
constant diagonal λ+2μ and constant off-diagonal λ; its lower-right 3×3
block is diagonal with value μ; and the cross blocks between normal and
shear components vanish. -/
theorem c2_tensorStructure (E nu : ℚ) (i j : Fin 6) (hE : 0 < E) (h1 : -1 < nu)
    (h2 : nu < 1/2) :
    (isotropicTensor E nu).transpose = isotropicTensor E nu
    ∧ (i.val < 3 → j.val < 3 →
        isotropicTensor E nu i j
          = if i = j then lamCoef E nu + 2 * muCoef E nu else lamCoef E nu)
    ∧ (3 ≤ i.val → 3 ≤ j.val →
        isotropicTensor E nu i j = if i = j then muCoef E nu else 0)
    ∧ (i.val < 3 → 3 ≤ j.val → isotropicTensor E nu i j = 0)
    ∧ (3 ≤ i.val → j.val < 3 → isotropicTensor E nu i j = 0) := by
  refine ⟨isotropicTensor_transpose E nu, ?_⟩
  fin_cases i <;> fin_cases j <;>
    refine ⟨fun hi hj => ?_, fun hi hj => ?_, fun hi hj => ?_, fun hi hj => ?_⟩ <;>
    first
      | rfl
      | (exact absurd hi (by decide))
      | (exact absurd hj (by decide))

/-- Claim C2 witness: instantiation at the driver's first material
E = 1000e3, ν = 0.3 and entry (0, 1) of the normal block. -/
theorem c2_witness :
    (0:ℚ) < 1000000 ∧ (-1:ℚ) < 3/10 ∧ (3/10:ℚ) < 1/2
    ∧ (isotropicTensor 1000000 (3/10)).transpose = isotropicTensor 1000000 (3/10)
    ∧ isotropicTensor 1000000 (3/10) 0 1
        = if (0 : Fin 6) = (1 : Fin 6) then lamCoef 1000000 (3/10) + 2 * muCoef 1000000 (3/10)
          else lamCoef 1000000 (3/10) := by
  have h := c2_tensorStructure 1000000 (3/10) 0 1 (by norm_num) (by norm_num) (by norm_num)
  exact ⟨by norm_num, by norm_num, by norm_num, h.1, h.2.1 (by decide) (by decide)⟩

/-- Claim C4: for every element with a uniform valid material (E > 0,
ν ∈ (−1, 1/2)) and every supplied geometry with nonnegative combined
quadrature weights, the local stiffness matrix is exactly symmetric and
positive-semidefinite. -/
theorem c4_assembleElementSymmPsd {m : ℕ} (E nu : ℚ) (hE : 0 < E) (h1 : -1 < nu)
    (h2 : nu < 1/2) (qps : List (ℚ × Matrix (Fin 6) (Fin m) ℚ))
    (hw : ∀ wb ∈ qps, 0 ≤ wb.1) (x : Fin m → ℚ) :
    (assembleElement (isotropicTensor E nu) qps).transpose
        = assembleElement (isotropicTensor E nu) qps
    ∧ 0 ≤ Matrix.dotProduct x ((assembleElement (isotropicTensor E nu) qps).mulVec x) := by
  constructor
  · exact assembleElement_symm_aux _ qps (isotropicTensor_transpose E nu)
  · exact assembleElement_psd_aux _ qps (isotropicTensor_psd E nu hE h1 h2) hw x

/-- Claim C4 witness: a one-dof element with a single quadrature point of
weight 1 and the unit normal-strain column, material E = 1000e3, ν = 0.3,
probed at the displacement vector (1). -/
theorem c4_witness :
    (0:ℚ) < 1000000 ∧ (-1:ℚ) < 3/10 ∧ (3/10:ℚ) < 1/2
    ∧ (assembleElement (isotropicTensor 1000000 (3/10)) [((1:ℚ), demoColB)]).transpose
        = assembleElement (isotropicTensor 1000000 (3/10)) [((1:ℚ), demoColB)]
    ∧ 0 ≤ Matrix.dotProduct ![1]
          ((assembleElement (isotropicTensor 1000000 (3/10)) [((1:ℚ), demoColB)]).mulVec ![1]) := by
  have h := c4_assembleElementSymmPsd 1000000 (3/10) (by norm_num) (by norm_num) (by norm_num)
    [((1:ℚ), demoColB)]
    (by intro wb hwb; rw [List.mem_singleton] at hwb; subst hwb; norm_num) ![1]
  exact ⟨by norm_num, by norm_num, by norm_num, h.1, h.2⟩

/-- Claim C6: tensor construction fails with an invalid-material-parameter
error if and only if E ≤ 0 or ν lies outside the open interval (−1, 1/2);
for parameters inside the bounds it succeeds with the isotropic tensor. -/
theorem c6_tensorConstructionFails (E nu : ℚ) :
    (getElasticityTensor E nu = Except.error MatError.invalidMaterialParameter
        ↔ (E ≤ 0 ∨ nu ≤ -1 ∨ 1/2 ≤ nu))
      ∧ (getElasticityTensor E nu = Except.ok (isotropicTensor E nu)
        ↔ (0 < E ∧ -1 < nu ∧ nu < 1/2)) := by
  unfold getElasticityTensor
  by_cases h : E ≤ 0 ∨ nu ≤ -1 ∨ 1/2 ≤ nu
  · rw [if_pos h]
    refine ⟨⟨fun _ => h, fun _ => rfl⟩, ⟨fun hok => ?_, fun hin => ?_⟩⟩
    · simp at hok
    · exfalso
      rcases h with h1 | h1 | h1
      · linarith [hin.1]
      · linarith [hin.2.1]
      · linarith [hin.2.2]
  · rw [if_neg h]
    push_neg at h
    refine ⟨⟨fun herr => ?_, fun hcond => ?_⟩, ⟨fun _ => ⟨h.1, h.2.1, h.2.2⟩, fun _ => rfl⟩⟩
    · simp at herr
    · exfalso
      rcases hcond with h1 | h1 | h1
      · linarith [h.1]
      · linarith [h.2.1]
      · linarith [h.2.2]

/-- Claim C8: for the driver's first material E = 1000e3, ν = 0.3, the
Lamé scalars are within 1% of 576923 and 384615, and the tensor's
normal-strain diagonal entry is λ+2μ, within 1% of 1346154. -/
theorem c8_lameNumeric :
    |lamCoef 1000000 (3/10) - 576923| ≤ 576923 / 100
      ∧ |muCoef 1000000 (3/10) - 384615| ≤ 384615 / 100
      ∧ isotropicTensor 1000000 (3/10) 0 0
          = lamCoef 1000000 (3/10) + 2 * muCoef 1000000 (3/10)
      ∧ |isotropicTensor 1000000 (3/10) 0 0 - 1346154| ≤ 1346154 / 100 := by
  refine ⟨?_, ?_, rfl, ?_⟩
  · rw [abs_le]
    constructor <;> norm_num [lamCoef]
  · rw [abs_le]
    constructor <;> norm_num [muCoef]
  · rw [show isotropicTensor 1000000 (3/10) 0 0
        = lamCoef 1000000 (3/10) + 2 * muCoef 1000000 (3/10) from rfl, abs_le]
    constructor <;> norm_num [lamCoef, muCoef]

/-- Claim C1 counterexample: with attributes.Max() = 3 the driver's guard
accepts the mesh, yet the table it builds for assembly is incomplete for
the mesh's region-id range 1..3 — no completeness validation happens
before assembly. -/
theorem c1_counterexample :
    driverGuard 3 2 = true ∧ tableCompleteForMesh (driverMaterialTable 3) 3 = false := by
  exact ⟨rfl, rfl⟩

/-- Claim C1 (amended): lookup of a region slot the driver never populated
fails with a missing-region error reporting the offending id rather than
yielding a default tensor (spec-modelled table), but the driver performs
no completeness validation: its guard accepts every mesh unconditionally. -/
theorem c1_lookupError_noValidation (attrMax bdrAttrMax slot : ℤ)
    (h1 : slot ≠ attrMax - 2) (h2 : slot ≠ attrMax - 1) :
    tableLookup (driverMaterialTable attrMax) slot
        = Except.error (MatError.missingRegionMapping slot)
    ∧ driverGuard attrMax bdrAttrMax = true := by
  refine ⟨?_, rfl⟩
  rw [driverMaterialTable_eq]
  show (if attrMax - 1 = slot then _ else _) = _
  rw [if_neg (by omega)]
  show (if attrMax - 2 = slot then _ else _) = _
  rw [if_neg (by omega)]
  rfl

/-- Claim C1 witness: a mesh with attributes.Max() = 3 and
bdr_attributes.Max() = 2; slot 0 (region id 1) is unmapped and its lookup
errors while the driver proceeds. -/
theorem c1_witness :
    tableLookup (driverMaterialTable 3) 0
        = Except.error (MatError.missingRegionMapping 0)
    ∧ driverGuard 3 2 = true := by
  exact c1_lookupError_noValidation 3 2 0 (by decide) (by decide)

/-- Claim C9: for every mesh, the driver populates exactly the two table
slots attributes.Max()−2 and attributes.Max()−1 (region ids
attributes.Max()−1 and attributes.Max()) with the tensors of materials 1
and 2; every other slot has no tensor, and no completeness check is
performed before assembly (the guard accepts every mesh). -/
theorem c9_driverTablePopulation (attrMax slot : ℤ) (h1 : slot ≠ attrMax - 2)
    (h2 : slot ≠ attrMax - 1) :
    tableLookup (driverMaterialTable attrMax) (attrMax - 2)
        = Except.ok (isotropicTensor 1000000 (3/10))
    ∧ tableLookup (driverMaterialTable attrMax) (attrMax - 1)
        = Except.ok (isotropicTensor 200000 (3/10))
    ∧ (tableLookup (driverMaterialTable attrMax) slot).isOk = false
    ∧ ∀ bdrAttrMax : ℤ, driverGuard attrMax bdrAttrMax = true := by
  refine ⟨?_, ?_, ?_, fun _ => rfl⟩
  · rw [driverMaterialTable_eq]
    show (if attrMax - 1 = attrMax - 2 then _ else _) = _
    rw [if_neg (by omega)]
    show (if attrMax - 2 = attrMax - 2 then _ else _) = _
    rw [if_pos rfl]
  · rw [driverMaterialTable_eq]
    show (if attrMax - 1 = attrMax - 1 then _ else _) = _
    rw [if_pos rfl]
  · rw [driverMaterialTable_eq]
    show ((if attrMax - 1 = slot then _ else _) : Except MatError _).isOk = false
    rw [if_neg (by omega)]
    show ((if attrMax - 2 = slot then _ else _) : Except MatError _).isOk = false
    rw [if_neg (by omega)]
    rfl

/-- Claim C9 witness: a mesh with attributes.Max() = 3 — slots 1 and 2 are
populated with the two materials, slot 0 is not, and the guard accepts
every boundary-attribute count. -/
theorem c9_witness :
    tableLookup (driverMaterialTable 3) (3 - 2)
        = Except.ok (isotropicTensor 1000000 (3/10))
    ∧ tableLookup (driverMaterialTable 3) (3 - 1)
        = Except.ok (isotropicTensor 200000 (3/10))
    ∧ (tableLookup (driverMaterialTable 3) 0).isOk = false
    ∧ ∀ bdrAttrMax : ℤ, driverGuard 3 bdrAttrMax = true := by
  exact c9_driverTablePopulation 3 0 (by decide) (by decide)

/-- Claim C5: whenever the pull-force vector has room for boundary
attribute 2 (bdr_attributes.Max() ≥ 2), its entry 1 — the force component
of boundary attribute 2 — equals exactly the first assigned value
4.0e3/(200·60), and the two trailing expression statements of line 202
have no effect: running all three statements equals running the
assignment alone. -/
theorem c5_pullForceValue (bdrAttrMax : ℕ) (h : 2 ≤ bdrAttrMax) :
    (pullForce bdrAttrMax).bind (fun l => l.get? 1) = some (4000 / (200 * 60))
    ∧ pullForce bdrAttrMax
        = execStmts [CStmt.assign 1 (4000 / (200 * 60))] (List.replicate bdrAttrMax 0) := by
  obtain ⟨m, rfl⟩ : ∃ m, bdrAttrMax = m + 2 := ⟨bdrAttrMax - 2, by omega⟩
  have hrep : List.replicate (m + 2) (0:ℚ) = 0 :: 0 :: List.replicate m 0 := by
    simp [List.replicate_succ]
  constructor
  · simp [pullForce, pullForceStmts, execStmts, execStmt, hrep]
  · simp [pullForce, pullForceStmts, execStmts, execStmt, hrep]

/-- Claim C5 witness: the standard beam mesh with two boundary
attributes. -/
theorem c5_witness :
    (pullForce 2).bind (fun l => l.get? 1) = some (4000 / (200 * 60))
    ∧ pullForce 2
        = execStmts [CStmt.assign 1 (4000 / (200 * 60))] (List.replicate 2 0) := by
  exact c5_pullForceValue 2 (by decide)

/-- Claim C10: the driver accepts a mesh whose maximum boundary attribute
id is 1 (the guard of lines 129–135 is commented out), and on such a mesh
the assignment pull_force(1) lands outside the length-1 vector — the
pull-force construction is an out-of-bounds access, contradicting the
claimed guarantee bdr_attributes.Max() ≥ 2. -/
theorem c10_acceptedMeshOutOfBounds :
    driverGuard 1 1 = true ∧ pullForce 1 = none := by
  exact ⟨rfl, rfl⟩

/-- Claim C3: the recovered stress field is organized per element — one
output slot per element — and the entry for element i is computed from
element i's own tensor, its own strain-displacement operators and its own
dof values; no cross-element combination or averaging enters any slot, so
a dof shared by elements of different materials gets one stress per
element, not a single shared nodal value. -/
theorem c3_recoverPerElement {n : ℕ} (t : MaterialTensorTable) (elems : List (Elem n))
    (u : ℕ → ℚ) (i : ℕ) (hi : i < elems.length) (C : Matrix (Fin 6) (Fin 6) ℚ)
    (hC : tableLookup t (elems.get ⟨i, hi⟩).slot = Except.ok C) :
    (recoverStress t elems u).length = elems.length
    ∧ (recoverStress t elems u).get? i
        = some (Except.ok ((elems.get ⟨i, hi⟩).B.map
            (fun Bp => C.mulVec (Bp.mulVec (localDisp u (elems.get ⟨i, hi⟩)))))) := by
  constructor
  · simp [recoverStress]
  · unfold recoverStress
    rw [List.get?_map, List.get?_eq_get hi]
    show some (elemStress t u (elems.get ⟨i, hi⟩)) = _
    unfold elemStress
    rw [hC]
    rfl

/-- Claim C3 witness: two one-dof elements of different materials (identity
tensor versus twice the identity) sharing global dof 5 — each output slot
holds the stress computed with that element's own tensor, and the two
stresses at the shared dof differ, exhibiting the interface
discontinuity. -/
theorem c3_witness :
    demoE1.dof 0 = demoE2.dof 0
    ∧ (recoverStress demoIdTable [demoE1, demoE2] demoU).get? 0
        = some (Except.ok (demoE1.B.map
            (fun Bp => (1 : Matrix (Fin 6) (Fin 6) ℚ).mulVec (Bp.mulVec (localDisp demoU demoE1)))))
    ∧ (recoverStress demoIdTable [demoE1, demoE2] demoU).get? 1
        = some (Except.ok (demoE2.B.map
            (fun Bp => ((2:ℚ) • (1 : Matrix (Fin 6) (Fin 6) ℚ)).mulVec (Bp.mulVec (localDisp demoU demoE2)))))
    ∧ ((1 : Matrix (Fin 6) (Fin 6) ℚ).mulVec (demoColB.mulVec (localDisp demoU demoE1))) 0
        ≠ (((2:ℚ) • (1 : Matrix (Fin 6) (Fin 6) ℚ)).mulVec (demoColB.mulVec (localDisp demoU demoE2))) 0 := by
  refine ⟨rfl, ?_, ?_, ?_⟩
  · exact (c3_recoverPerElement demoIdTable [demoE1, demoE2] demoU 0 (by norm_num) 1 rfl).2
  · exact (c3_recoverPerElement demoIdTable [demoE1, demoE2] demoU 1 (by norm_num)
      ((2:ℚ) • 1) rfl).2
  · have hv1 : (demoColB.mulVec (localDisp demoU demoE1)) 0 = 1 := by
      show (Finset.univ.sum fun i => demoColB 0 i * localDisp demoU demoE1 i) = 1
      rw [Fin.sum_univ_one]
      show (1:ℚ) * 1 = 1
      norm_num
    have hv2 : (demoColB.mulVec (localDisp demoU demoE2)) 0 = 1 := by
      show (Finset.univ.sum fun i => demoColB 0 i * localDisp demoU demoE2 i) = 1
      rw [Fin.sum_univ_one]
      show (1:ℚ) * 1 = 1
      norm_num
    rw [Matrix.one_mulVec, Matrix.smul_mulVec_assoc, Matrix.one_mulVec]
    rw [Pi.smul_apply, hv1, hv2]
    norm_num

/-- Claim C7: recovering stress from a displacement field scaled by k
yields, slot for slot, k times the stress recovered from the original
field — for every table, including every complete one. -/
theorem c7_recoverHomogeneous {n : ℕ} (t : MaterialTensorTable) (elems : List (Elem n))
    (u : ℕ → ℚ) (k : ℚ) :
    recoverStress t elems (fun d => k * u d)
      = (recoverStress t elems u).map (Except.map (List.map (fun s => k • s))) := by
  unfold recoverStress
  rw [List.map_map]
  apply List.map_congr_left
  intro e _
  show elemStress t (fun d => k * u d) e
      = Except.map (List.map (fun s => k • s)) (elemStress t u e)
  unfold elemStress
  cases htl : tableLookup t e.slot with
  | error err => rfl
  | ok C =>
    show Except.ok (List.map (fun Bp => C.mulVec (Bp.mulVec (localDisp (fun d => k * u d) e))) e.B)
      = Except.map (List.map (fun s => k • s))
          (Except.ok (List.map (fun Bp => C.mulVec (Bp.mulVec (localDisp u e))) e.B))
    show Except.ok (List.map (fun Bp => C.mulVec (Bp.mulVec (localDisp (fun d => k * u d) e))) e.B)
      = Except.ok (List.map (fun s => k • s)
          (List.map (fun Bp => C.mulVec (Bp.mulVec (localDisp u e))) e.B))
    rw [List.map_map]
    congr 1
    apply List.map_congr_left
    intro Bp _
    show C.mulVec (Bp.mulVec (localDisp (fun d => k * u d) e))
        = k • C.mulVec (Bp.mulVec (localDisp u e))
    rw [localDisp_smul, Matrix.mulVec_smul, Matrix.mulVec_smul]
